import Mathlib

/-!
Verification development for the bm-universe-eod acquisition engine
(`scripts/providers.py` and `scripts/fetch_and_build.py`).

Shallow embedding conventions:
* Python `int` is `Int` (unbounded in Python).
* A Python value that may be `None` is `Option _`.
* A call that may raise is `Except Unit _` (the concrete exception payload
  is irrelevant to the claims).
* Provider network results are supplied as oracle parameters, so the pure
  control flow of the source is what is embedded.
-/

namespace BmUniverseEod

/-! ## Budget Ledger — `scripts/providers.py`, class `AlphaBudget`

```python
class AlphaBudget:
    def __init__(self, daily_limit: int = 24):
        self._remain = int(daily_limit)
    def remaining(self) -> int:
        return self._remain
    def consume(self, n: int):
        self._remain = max(0, self._remain - int(n))
```
-/

structure AlphaBudget where
  remain : Int
deriving DecidableEq

/-- `AlphaBudget.__init__`: `self._remain = int(daily_limit)`. -/
def AlphaBudget.init (daily_limit : Int) : AlphaBudget :=
  ⟨daily_limit⟩

/-- `AlphaBudget.remaining`: `return self._remain`. -/
def AlphaBudget.remaining (b : AlphaBudget) : Int :=
  b.remain

/-- `AlphaBudget.consume`: `self._remain = max(0, self._remain - int(n))`. -/
def AlphaBudget.consume (b : AlphaBudget) (n : Int) : AlphaBudget :=
  ⟨max 0 (b.remain - n)⟩

/-- A finite sequence of `consume` calls, applied in order. -/
def AlphaBudget.consumeSeq (b : AlphaBudget) (ns : List Int) : AlphaBudget :=
  ns.foldl AlphaBudget.consume b

theorem AlphaBudget.consumeSeq_nil (b : AlphaBudget) : b.consumeSeq [] = b := rfl

theorem AlphaBudget.consumeSeq_cons (b : AlphaBudget) (n : Int) (ns : List Int) :
    b.consumeSeq (n :: ns) = (b.consume n).consumeSeq ns := rfl

/-- Core ledger computation: starting from a nonnegative remainder `r`,
consuming a list of nonnegative amounts leaves `max 0 (r - sum)`. -/
theorem AlphaBudget.consumeSeq_remaining (r : Int) (hr : 0 ≤ r) (ns : List Int)
    (hns : ∀ n ∈ ns, 0 ≤ n) :
    (AlphaBudget.consumeSeq ⟨r⟩ ns).remaining = max 0 (r - ns.sum) := by
  induction ns generalizing r with
  | nil => simp [AlphaBudget.consumeSeq, AlphaBudget.remaining]; omega
  | cons n rest ih =>
    have hn : 0 ≤ n := hns n (List.mem_cons_self n rest)
    have hrest : ∀ m ∈ rest, 0 ≤ m := fun m hm => hns m (List.mem_cons_of_mem n hm)
    have hsum : 0 ≤ rest.sum := List.sum_nonneg hrest
    rw [AlphaBudget.consumeSeq_cons]
    have hcons : AlphaBudget.consume ⟨r⟩ n = ⟨max 0 (r - n)⟩ := rfl
    rw [hcons, ih (max 0 (r - n)) (le_max_left 0 (r - n)) hrest]
    simp only [List.sum_cons]
    omega

/-- C1 — Budget conservation: for an `AlphaBudget` constructed with
`daily_limit = L ≥ 0`, after any finite sequence of `consume(n_i)` calls with
every `n_i ≥ 0` summing to `C`, `remaining()` equals `max 0 (L - C)`, and at
every intermediate point (i.e. after any such sequence of nonnegative
consumptions) `remaining()` is nonnegative. -/
theorem budget_conservation (L : Int) (hL : 0 ≤ L) (ns : List Int)
    (hns : ∀ n ∈ ns, 0 ≤ n) :
    ((AlphaBudget.init L).consumeSeq ns).remaining = max 0 (L - ns.sum) ∧
    0 ≤ ((AlphaBudget.init L).consumeSeq ns).remaining := by
  have h := AlphaBudget.consumeSeq_remaining L hL ns hns
  simp only [AlphaBudget.init]
  refine ⟨h, ?_⟩
  rw [h]
  exact le_max_left 0 (L - ns.sum)

/-- Witness for C1: the spec's own scenario — budget 3, four `consume(1)`
calls; remaining is `max 0 (3 - 4) = 0` and nonnegative. -/
theorem budget_conservation_witness :
    ((AlphaBudget.init 3).consumeSeq [1, 1, 1, 1]).remaining = max 0 (3 - [1, 1, 1, 1].sum) ∧
    0 ≤ ((AlphaBudget.init 3).consumeSeq [1, 1, 1, 1]).remaining :=
  budget_conservation 3 (by decide) [1, 1, 1, 1] (by decide)

/-- C7 counterexample: the claim quantifies over every integer `n` including
`n ≤ 0`, but `consume(-1)` on a budget with `daily_limit = 5` *raises*
`remaining()` from 5 to 6, which also exceeds the daily limit. -/
theorem budget_ledger_counterexample :
    ((AlphaBudget.init 5).consume (-1)).remaining = 6 ∧
    (AlphaBudget.init 5).remaining = 5 ∧
    ¬ ((AlphaBudget.init 5).consume (-1)).remaining ≤ (AlphaBudget.init 5).remaining ∧
    ¬ ((AlphaBudget.init 5).consume (-1)).remaining ≤ 5 := by
  decide

/-- C7 (amended) — Budget ledger invariant: for every `AlphaBudget` state with
nonnegative remainder and every `n ≥ 0`, `consume(n)` never increases
`remaining()`; and for a construction limit `L ≥ 0`, `remaining() ≤ L` holds
after every sequence of `consume` calls with nonnegative arguments. -/
theorem budget_ledger_invariant (b : AlphaBudget) (n : Int) (hb : 0 ≤ b.remaining)
    (hn : 0 ≤ n) (L : Int) (hL : 0 ≤ L) (ns : List Int) (hns : ∀ m ∈ ns, 0 ≤ m) :
    (b.consume n).remaining ≤ b.remaining ∧
    ((AlphaBudget.init L).consumeSeq ns).remaining ≤ L := by
  constructor
  · simp only [AlphaBudget.consume, AlphaBudget.remaining] at *
    omega
  · have h := AlphaBudget.consumeSeq_remaining L hL ns hns
    simp only [AlphaBudget.init]
    rw [h]
    have : 0 ≤ ns.sum := List.sum_nonneg hns
    omega

/-- Witness for C7 (amended): concrete state 5, `consume 2` yields 3 ≤ 5; and
`init 5` followed by `consume(2); consume(4)` leaves remaining ≤ 5. -/
theorem budget_ledger_invariant_witness :
    ((AlphaBudget.init 5).consume 2).remaining ≤ (AlphaBudget.init 5).remaining ∧
    ((AlphaBudget.init 5).consumeSeq [2, 4]).remaining ≤ 5 :=
  budget_ledger_invariant (AlphaBudget.init 5) 2 (by decide) (by decide) 5 (by decide)
    [2, 4] (by decide)

/-! ## Rotation Scheduler — `scripts/fetch_and_build.py`, `main`

```python
calls_per_ticker = 3  # income, balance, cashflow
tpd = max(1, daily_budget // calls_per_ticker)
tickers = list(uni["Ticker"])
n = len(tickers)
start = (d.toordinal() * tpd) % max(1, n)
to_refresh = [tickers[(start + i) % n] for i in range(min(tpd, n))]
```
-/

/-- The rotation selection for a given day ordinal and per-day quota `Q`
(the source's `tpd`): `start = (ordinal * Q) % max(1, n)` and the eligible
list is `tickers[(start + i) % n]` for `i in range(min(Q, n))`. -/
def rotationEligible (tickers : List String) (ordinal Q : Nat) : List String :=
  let n := tickers.length
  let start := (ordinal * Q) % max 1 n
  (List.range (min Q n)).map (fun i => tickers.getD ((start + i) % n) "")

/-- `to_refresh` as computed in `main`: the quota is
`tpd = max(1, daily_budget // 3)`. -/
def to_refresh (tickers : List String) (ordinal daily_budget : Nat) : List String :=
  rotationEligible tickers ordinal (max 1 (daily_budget / 3))

/-- Reading a list at every position in order reproduces the list. -/
theorem map_getD_range (l : List String) (d : String) :
    (List.range l.length).map (fun i => l.getD i d) = l := by
  apply List.ext_getElem
  · simp
  · intro n h₁ h₂
    simp only [List.getElem_map, List.getElem_range]
    exact List.getD_eq_getElem l d h₂

/-- Shifting `range N` by `a` and reducing mod `N` is a permutation of
`range N`. -/
theorem shifted_mod_range_perm (a N : Nat) (hN : 1 ≤ N) :
    ((List.range N).map (fun j => (a + j) % N)).Perm (List.range N) := by
  have hpos : 0 < N := hN
  have hnodup : ((List.range N).map (fun j => (a + j) % N)).Nodup := by
    refine List.Nodup.map_on ?_ (List.nodup_range N)
    intro x hx y hy hxy
    rw [List.mem_range] at hx hy
    have hmod : x ≡ y [MOD N] := Nat.ModEq.add_left_cancel' a hxy
    have := hmod
    unfold Nat.ModEq at this
    rw [Nat.mod_eq_of_lt hx, Nat.mod_eq_of_lt hy] at this
    exact this
  have hsubset : ((List.range N).map (fun j => (a + j) % N)) ⊆ List.range N := by
    intro z hz
    rw [List.mem_map] at hz
    obtain ⟨j, _, rfl⟩ := hz
    rw [List.mem_range]
    exact Nat.mod_lt _ hpos
  have hsp := List.subperm_of_subset hnodup hsubset
  exact hsp.perm_of_length_le (by simp)

/-- `range (m * q)` splits into `m` consecutive blocks of length `q`. -/
theorem range_mul_map {α : Type} (g : Nat → α) (m q : Nat) :
    (List.range (m * q)).map g =
      (List.range m).flatMap (fun j => (List.range q).map (fun i => g (j * q + i))) := by
  induction m with
  | zero => simp
  | succ m ih =>
    rw [List.range_succ, Nat.succ_mul, List.range_add, List.flatMap_append]
    simp only [List.map_append, List.map_map, ih]
    congr 1
    · simp [List.flatMap_singleton, Function.comp]

/-- C2 — Rotation coverage: for a universe of `N ≥ 1` tickers and a quota
`Q ≥ 1` dividing `N`, the eligible lists of any `N / Q` consecutive day
ordinals, concatenated, form a permutation of the whole universe (every
symbol selected exactly once across the cycle); and when the universe has no
duplicates the per-day eligible lists are pairwise disjoint. -/
theorem rotation_coverage (tickers : List String) (Q d0 : Nat)
    (_hQ1 : 1 ≤ Q) (hdvd : Q ∣ tickers.length) (hN : 1 ≤ tickers.length) :
    ((List.range (tickers.length / Q)).flatMap
        (fun j => rotationEligible tickers (d0 + j) Q)).Perm tickers ∧
    (tickers.Nodup →
      ((List.range (tickers.length / Q)).map
          (fun j => rotationEligible tickers (d0 + j) Q)).Pairwise List.Disjoint) := by
  set N := tickers.length with hNdef
  have hpos : 0 < N := hN
  have hQN : Q ≤ N := Nat.le_of_dvd hpos hdvd
  have hmaxN : max 1 N = N := Nat.max_eq_right hN
  have hminQ : min Q N = Q := Nat.min_eq_left hQN
  -- The eligible list of day `d` is the block of indices `[d*Q, d*Q + Q) mod N`.
  have helig : ∀ d : Nat, rotationEligible tickers d Q =
      (List.range Q).map (fun i => tickers.getD ((d * Q + i) % N) "") := by
    intro d
    unfold rotationEligible
    simp only [← hNdef, hmaxN, hminQ, Nat.mod_add_mod]
  -- The concatenated index lists over the window are a shift of `range N`.
  have hflat :
      (List.range (N / Q)).flatMap
          (fun j => rotationEligible tickers (d0 + j) Q) =
        ((List.range N).map (fun k => (d0 * Q + k) % N)).map
          (fun ix => tickers.getD ix "") := by
    have hNQ : (N / Q) * Q = N := Nat.div_mul_cancel hdvd
    calc (List.range (N / Q)).flatMap (fun j => rotationEligible tickers (d0 + j) Q)
        = (List.range (N / Q)).flatMap
            (fun j => (List.range Q).map
              (fun i => tickers.getD (((d0 + j) * Q + i) % N) "")) := by
          simp only [helig]
      _ = (List.range (N / Q)).flatMap
            (fun j => (List.range Q).map
              (fun i => tickers.getD ((d0 * Q + (j * Q + i)) % N) "")) := by
          congr 1
          funext j
          congr 1
          funext i
          congr 2
          ring
      _ = (List.range ((N / Q) * Q)).map
            (fun k => tickers.getD ((d0 * Q + k) % N) "") := by
          rw [range_mul_map]
      _ = ((List.range N).map (fun k => (d0 * Q + k) % N)).map
            (fun ix => tickers.getD ix "") := by
          rw [hNQ, List.map_map]
          rfl
  have hperm :
      ((List.range (N / Q)).flatMap
          (fun j => rotationEligible tickers (d0 + j) Q)).Perm tickers := by
    rw [hflat]
    have h1 := (shifted_mod_range_perm (d0 * Q) N hN).map (fun ix => tickers.getD ix "")
    have h2 : (List.range N).map (fun ix => tickers.getD ix "") = tickers :=
      map_getD_range tickers ""
    rw [h2] at h1
    exact h1
  refine ⟨hperm, fun hnd => ?_⟩
  have hflatnd :
      ((List.range (N / Q)).flatMap
          (fun j => rotationEligible tickers (d0 + j) Q)).Nodup :=
    hperm.nodup_iff.mpr hnd
  rw [List.flatMap_def] at hflatnd
  exact (List.nodup_flatten.mp hflatnd).2

/-- Witness for C2: universe of 4 distinct symbols, quota 2, window of
`4 / 2 = 2` days starting at ordinal 5: concatenation is a permutation of
the universe and the two eligible lists are disjoint. -/
theorem rotation_coverage_witness :
    ((List.range (["AAA", "BBB", "CCC", "DDD"].length / 2)).flatMap
        (fun j => rotationEligible ["AAA", "BBB", "CCC", "DDD"] (5 + j) 2)).Perm
      ["AAA", "BBB", "CCC", "DDD"] ∧
    ((List.range (["AAA", "BBB", "CCC", "DDD"].length / 2)).map
        (fun j => rotationEligible ["AAA", "BBB", "CCC", "DDD"] (5 + j) 2)).Pairwise
      List.Disjoint :=
  ⟨(rotation_coverage ["AAA", "BBB", "CCC", "DDD"] 2 5 (by decide) (by decide)
      (by decide)).1,
   (rotation_coverage ["AAA", "BBB", "CCC", "DDD"] 2 5 (by decide) (by decide)
      (by decide)).2 (by decide)⟩

/-- C3 — Rotation formula: `to_refresh` is exactly the claimed pure formula
(quota `Q = max 1 (B / 3)`, `start = (ordinal * Q) % N`, entries
`tickers[(start + i) % N]` for `i < min Q N`, in that order), and the two
concrete scenarios hold: for `N = 5`, `B = 6` (`Q = 2`), ordinal 10 selects
indices 0 and 1, ordinal 11 selects indices 2 and 3. -/
theorem rotation_formula :
    (∀ (tickers : List String) (ordinal B : Nat), 1 ≤ tickers.length →
      to_refresh tickers ordinal B =
        (List.range (min (max 1 (B / 3)) tickers.length)).map
          (fun i => tickers.getD
            (((ordinal * max 1 (B / 3)) % tickers.length + i) % tickers.length) "")) ∧
    to_refresh ["s0", "s1", "s2", "s3", "s4"] 10 6 = ["s0", "s1"] ∧
    to_refresh ["s0", "s1", "s2", "s3", "s4"] 11 6 = ["s2", "s3"] := by
  refine ⟨?_, by decide, by decide⟩
  intro tickers ordinal B h
  unfold to_refresh rotationEligible
  simp only [Nat.max_eq_right h]

/-- Witness for C3: the formula instantiated at a concrete universe of two
symbols, ordinal 7, daily budget 24. -/
theorem rotation_formula_witness :
    to_refresh ["a", "b"] 7 24 =
      (List.range (min (max 1 (24 / 3)) (["a", "b"] : List String).length)).map
        (fun i => (["a", "b"] : List String).getD
          (((7 * max 1 (24 / 3)) % (["a", "b"] : List String).length + i) %
            (["a", "b"] : List String).length) "") :=
  rotation_formula.1 ["a", "b"] 7 24 (by decide)

/-! ## Statement Cache and `alpha_statements` — `scripts/providers.py`

```python
def alpha_statements(symbol, refresh=False, refresh_days=30, budget=None):
    out = {}
    now = dt.datetime.utcnow()
    for kind, func in (("income", ...), ("balance", ...), ("cashflow", ...)):
        cached = _load_stmt_cache(symbol, kind)
        need = True
        if cached and not refresh:
            try:
                ts = dt.datetime.fromisoformat(cached.get("_ts", "").replace("Z", ""))
                if (now - ts).days < refresh_days:
                    need = False
            except Exception:
                pass
        if need:
            if budget is not None and budget.remaining() <= 0:
                out[kind] = cached["payload"] if cached else None
                continue
            js = _alpha_get(func, symbol)
            _save_stmt_cache(symbol, kind, js)
            if budget is not None:
                budget.consume(1)
            out[kind] = js
            time.sleep(13)
        else:
            out[kind] = cached["payload"]
    return out
```

The per-kind loop body is embedded as `alphaStatementsStep`. The entry's age
in whole days, `(now - ts).days`, is carried in the entry as
`tsAgeDays : Option Int` (`none` models an unparseable `_ts`, the `except`
branch). A `Payload` is opaque. A provider call that raises (`_alpha_get`
raises `RateLimit` or an HTTP error) is `Except.error ()`.
-/

/-- Opaque statement payloads. -/
abbrev Payload := Nat

/-- A cached statement entry: age of its `_ts` timestamp in whole days
relative to `now` (`none` when the timestamp fails to parse), plus payload. -/
structure CacheEntry where
  tsAgeDays : Option Int
  payload : Payload
deriving DecidableEq

/-- The refresh test of the loop body: `need` is `True` unless there is a
cache entry, `refresh` is false, the timestamp parses, and the age is
strictly below `refresh_days`. -/
def needRefresh (cached : Option CacheEntry) (refresh : Bool) (refreshDays : Int) : Bool :=
  match cached with
  | none => true
  | some e =>
    if refresh then true
    else
      match e.tsAgeDays with
      | none => true
      | some age => if age < refreshDays then false else true

/-- The per-kind body of `alpha_statements`: returns the value stored in
`out[kind]`, the budget object state afterwards, and whether a live provider
fetch was performed; `Except.error` when `_alpha_get` raises. -/
def alphaStatementsStep (cached : Option CacheEntry) (refresh : Bool) (refreshDays : Int)
    (budget : Option AlphaBudget) (fetch : Except Unit Payload) :
    Except Unit (Option Payload × Option AlphaBudget × Bool) :=
  if needRefresh cached refresh refreshDays then
    match budget with
    | some b =>
      if b.remaining ≤ 0 then
        .ok (cached.map CacheEntry.payload, some b, false)
      else
        match fetch with
        | .error e => .error e
        | .ok js => .ok (some js, some (b.consume 1), true)
    | none =>
      match fetch with
      | .error e => .error e
      | .ok js => .ok (some js, none, true)
  else
    .ok (cached.map CacheEntry.payload, budget, false)

/-- C4 — Staleness boundary: (a) an entry aged exactly `refresh_days` is
stale (refresh attempted even with the refresh flag false); (b) an entry aged
`refresh_days - 1` or less is fresh; (c) a fresh entry makes the step return
the cached payload with no fetch and no budget change; (d) an entry aged 31
days with `refresh_days = 30` is stale, and with budget available the step
performs a live fetch. -/
theorem staleness_boundary (rd : Int) (p : Payload) :
    needRefresh (some ⟨some rd, p⟩) false rd = true ∧
    (∀ age : Int, age ≤ rd - 1 → needRefresh (some ⟨some age, p⟩) false rd = false) ∧
    (∀ (age : Int) (budget : Option AlphaBudget) (fetch : Except Unit Payload),
      age < rd →
        alphaStatementsStep (some ⟨some age, p⟩) false rd budget fetch =
          .ok (some p, budget, false)) ∧
    (needRefresh (some ⟨some 31, p⟩) false 30 = true ∧
      ∀ js : Payload,
        alphaStatementsStep (some ⟨some 31, p⟩) false 30 (some ⟨5⟩) (.ok js) =
          .ok (some js, some ⟨4⟩, true)) := by
  refine ⟨?_, ?_, ?_, ?_, ?_⟩
  · show (if rd < rd then false else true) = true
    rw [if_neg (lt_irrefl rd)]
  · intro age hage
    show (if age < rd then false else true) = false
    rw [if_pos (by omega)]
  · intro age budget fetch hage
    have hn : needRefresh (some ⟨some age, p⟩) false rd = false := by
      show (if age < rd then false else true) = false
      rw [if_pos hage]
    cases budget with
    | none => simp [alphaStatementsStep, hn, Option.map]
    | some b => simp [alphaStatementsStep, hn, Option.map]
  · show (if (31 : Int) < 30 then false else true) = true
    norm_num
  · intro js
    have hn : needRefresh (some ⟨some 31, p⟩) false 30 = true := by
      show (if (31 : Int) < 30 then false else true) = true
      norm_num
    simp only [alphaStatementsStep, hn, if_true]
    norm_num [AlphaBudget.remaining, AlphaBudget.consume]

/-- Witness for C4: `refresh_days = 30`; age 30 is stale, age 29 fresh, a
fresh entry is served from cache, and the 31-day-old entry triggers a fetch. -/
theorem staleness_boundary_witness :
    needRefresh (some ⟨some 30, 7⟩) false 30 = true ∧
    needRefresh (some ⟨some 29, 7⟩) false 30 = false ∧
    alphaStatementsStep (some ⟨some 29, 7⟩) false 30 (some ⟨5⟩) (.error ()) =
      .ok (some 7, some ⟨5⟩, false) ∧
    alphaStatementsStep (some ⟨some 31, 7⟩) false 30 (some ⟨5⟩) (.ok 9) =
      .ok (some 9, some ⟨4⟩, true) :=
  ⟨(staleness_boundary 30 7).1,
   (staleness_boundary 30 7).2.1 29 (by norm_num),
   (staleness_boundary 30 7).2.2.1 29 (some ⟨5⟩) (.error ()) (by norm_num),
   (staleness_boundary 30 7).2.2.2.2 9⟩

/-- C5 — Budget-exhausted fallback: (a) for a kind that needs a refresh, if
the tracked budget's `remaining() ≤ 0` then the step performs no fetch,
consumes no budget, returns the cached payload when an entry exists and
`none` when it does not, and never raises; (b) when no refresh is needed the
step returns the cached payload with no fetch and no budget consumption. -/
theorem budget_exhausted_fallback (cached : Option CacheEntry) (refresh : Bool)
    (refreshDays : Int) (b : AlphaBudget) (budget : Option AlphaBudget)
    (fetch : Except Unit Payload) :
    (needRefresh cached refresh refreshDays = true → b.remaining ≤ 0 →
      alphaStatementsStep cached refresh refreshDays (some b) fetch =
        .ok (cached.map CacheEntry.payload, some b, false)) ∧
    (needRefresh cached refresh refreshDays = false →
      alphaStatementsStep cached refresh refreshDays budget fetch =
        .ok (cached.map CacheEntry.payload, budget, false)) := by
  constructor
  · intro hneed hb
    simp only [alphaStatementsStep, hneed, if_true]
    rw [if_pos hb]
  · intro hneed
    simp [alphaStatementsStep, hneed]

/-- Witness for C5: a stale entry with an exhausted budget is served from
cache without a fetch even though the provider call would raise; and a fresh
entry is served from cache with the budget untouched. -/
theorem budget_exhausted_fallback_witness :
    alphaStatementsStep (some ⟨some 40, 7⟩) false 30 (some ⟨0⟩) (.error ()) =
      .ok (some 7, some ⟨0⟩, false) ∧
    alphaStatementsStep (some ⟨some 3, 7⟩) false 30 (some ⟨9⟩) (.error ()) =
      .ok (some 7, some ⟨9⟩, false) :=
  ⟨(budget_exhausted_fallback (some ⟨some 40, 7⟩) false 30 ⟨0⟩ (some ⟨0⟩)
      (.error ())).1 (by decide) (by norm_num [AlphaBudget.remaining]),
   (budget_exhausted_fallback (some ⟨some 3, 7⟩) false 30 ⟨9⟩ (some ⟨9⟩)
      (.error ())).2 (by decide)⟩

/-! ## Price fallback — `scripts/providers.py`, `fill_missing_prices`

```python
def price_stooq(ticker):
    try:
        df = pdr.DataReader(yf_symbol(ticker), "stooq")
        if df is None or df.empty:
            return None
        return float(df["Close"].dropna().iloc[-1])
    except Exception:
        return None

def fill_missing_prices(prices):
    out = dict(prices)
    for t, v in prices.items():
        if v is not None:
            continue
        try:
            out[t] = price_tiingo(t)
            if out[t] is not None:
                continue
        except RateLimit:
            pass
        except Exception:
            pass
        try:
            out[t] = price_alpha_global_quote(t)
            if out[t] is not None:
                continue
        except RateLimit:
            pass
        except Exception:
            pass
        out[t] = price_stooq(t)
    return out
```

Each provider's network behaviour is an oracle outcome
`Except Unit (Option α)`: `.error ()` models a raised exception (`RateLimit`
or any other), `.ok none` a response with no usable value, `.ok (some x)` a
price. The Python dict is an association list with distinct keys.
-/

/-- The three per-symbol fallback providers, in source order. -/
inductive Provider where
  | tiingo
  | alpha
  | stooq
deriving DecidableEq

/-- Oracle outcomes of the three providers for one ticker. -/
structure ProviderOutcomes (α : Type) where
  tiingo : Except Unit (Option α)
  alpha : Except Unit (Option α)
  stooq : Except Unit (Option α)

/-- `price_stooq`: every exception of the underlying reader is swallowed and
becomes `None`. -/
def price_stooq {α : Type} (fetch : Except Unit (Option α)) : Option α :=
  match fetch with
  | .error _ => none
  | .ok v => v

/-- An outcome that yields no price: a raised exception or a `None` return. -/
def providerFailed {α : Type} (r : Except Unit (Option α)) : Prop :=
  r = .error () ∨ r = .ok none

/-- The loop body of `fill_missing_prices` for one ticker whose input price is
`None`: resulting price and the ordered list of providers attempted. -/
def fillOne {α : Type} (o : ProviderOutcomes α) : Option α × List Provider :=
  match o.tiingo with
  | .ok (some x) => (some x, [.tiingo])
  | _ =>
    match o.alpha with
    | .ok (some x) => (some x, [.tiingo, .alpha])
    | _ => (price_stooq o.stooq, [.tiingo, .alpha, .stooq])

/-- One iteration of `fill_missing_prices` over a dict item: a resolved price
is kept untouched with no provider attempted; a `None` price runs `fillOne`. -/
def fillEntry {α : Type} (oracle : String → ProviderOutcomes α)
    (e : String × Option α) : (String × Option α) × List Provider :=
  match e with
  | (t, some v) => ((t, some v), [])
  | (t, none) => ((t, (fillOne (oracle t)).1), (fillOne (oracle t)).2)

/-- `fill_missing_prices`: the output mapping together with the log of every
provider call made, tagged by ticker. -/
def fill_missing_prices {α : Type} (oracle : String → ProviderOutcomes α)
    (prices : List (String × Option α)) :
    List (String × Option α) × List (String × Provider) :=
  (prices.map (fun e => (fillEntry oracle e).1),
   prices.flatMap (fun e => ((fillEntry oracle e).2).map (fun p => (e.1, p))))

theorem fillOne_all_failed {α : Type} (o : ProviderOutcomes α)
    (ht : providerFailed o.tiingo) (ha : providerFailed o.alpha)
    (hs : providerFailed o.stooq) :
    fillOne o = (none, [.tiingo, .alpha, .stooq]) := by
  have hstooq : price_stooq o.stooq = none := by
    rcases hs with h | h <;> simp [price_stooq, h]
  rcases ht with h | h <;> rcases ha with h' | h' <;>
    simp [fillOne, h, h', hstooq]

/-- C6 — Fallback exhaustion: for a ticker whose input price is `None`,
(a) if Tiingo, Alpha Vantage and Stooq all fail (return `None` or raise), the
output maps the ticker to `None` — with no exception, `fill_missing_prices`
being total — and exactly the three providers were attempted, in order;
(b) a Tiingo success stops after Tiingo; (c) a Tiingo failure followed by an
Alpha success stops after Alpha; (d) with both failed, a Stooq value is
returned after all three attempts. -/
theorem fallback_exhaustion {α : Type} (oracle : String → ProviderOutcomes α)
    (t : String) (prices : List (String × Option α)) :
    (providerFailed (oracle t).tiingo → providerFailed (oracle t).alpha →
      providerFailed (oracle t).stooq → (t, none) ∈ prices →
        (t, (none : Option α)) ∈ (fill_missing_prices oracle prices).1 ∧
        fillOne (oracle t) = (none, [.tiingo, .alpha, .stooq])) ∧
    (∀ x : α, (oracle t).tiingo = .ok (some x) →
      fillOne (oracle t) = (some x, [.tiingo])) ∧
    (∀ x : α, providerFailed (oracle t).tiingo → (oracle t).alpha = .ok (some x) →
      fillOne (oracle t) = (some x, [.tiingo, .alpha])) ∧
    (∀ x : α, providerFailed (oracle t).tiingo → providerFailed (oracle t).alpha →
      (oracle t).stooq = .ok (some x) →
      fillOne (oracle t) = (some x, [.tiingo, .alpha, .stooq])) := by
  refine ⟨?_, ?_, ?_, ?_⟩
  · intro ht ha hs hmem
    have hfill := fillOne_all_failed (oracle t) ht ha hs
    refine ⟨?_, hfill⟩
    rw [fill_missing_prices]
    rw [List.mem_map]
    refine ⟨(t, none), hmem, ?_⟩
    simp [fillEntry, hfill]
  · intro x hx
    simp [fillOne, hx]
  · intro x ht hx
    rcases ht with h | h <;> simp [fillOne, h, hx]
  · intro x ht ha hx
    rcases ht with h | h <;> rcases ha with h' | h' <;>
      simp [fillOne, h, h', hx, price_stooq]

/-- Concrete oracle where every provider fails for every ticker: Tiingo
raises, Alpha returns no value, Stooq's underlying reader raises. -/
def allFailOracle : String → ProviderOutcomes Int :=
  fun _ => ⟨.error (), .ok none, .error ()⟩

/-- Witness for C6: on input `[("X", none)]` with every provider failing, the
output maps `"X"` to `none` after exactly the three ordered attempts. -/
theorem fallback_exhaustion_witness :
    ("X", (none : Option Int)) ∈ (fill_missing_prices allFailOracle [("X", none)]).1 ∧
    fillOne (allFailOracle "X") = (none, [.tiingo, .alpha, .stooq]) :=
  (fallback_exhaustion allFailOracle "X" [("X", none)]).1
    (Or.inl rfl) (Or.inr rfl) (Or.inl rfl) (List.mem_singleton.mpr rfl)

/-- In an association list with pairwise-distinct keys (a Python dict), two
members sharing a key carry the same value. -/
theorem eq_of_mem_of_nodup_keys {α β : Type} {l : List (α × β)}
    (h : (l.map Prod.fst).Nodup) {k : α} {a b : β}
    (ha : (k, a) ∈ l) (hb : (k, b) ∈ l) : a = b := by
  induction l with
  | nil => cases ha
  | cons e rest ih =>
    rw [List.map_cons, List.nodup_cons] at h
    obtain ⟨hnotin, hnd⟩ := h
    rcases List.mem_cons.mp ha with ha0 | ha'
    · rcases List.mem_cons.mp hb with hb0 | hb'
      · subst ha0
        injection hb0 with h1 h2
        exact h2.symm
      · subst ha0
        exact absurd (List.mem_map.mpr ⟨(k, b), hb', rfl⟩) hnotin
    · rcases List.mem_cons.mp hb with hb0 | hb'
      · subst hb0
        exact absurd (List.mem_map.mpr ⟨(k, a), ha', rfl⟩) hnotin
      · exact ih hnd ha' hb'

/-- C10 — Frame property of price fallback: a ticker whose input price is
already resolved (`some x`) is kept in the output with exactly the same
value, its loop iteration makes no provider attempt, and (keys being distinct,
as in a Python dict) the whole call log contains no entry for that ticker. -/
theorem price_fallback_frame {α : Type} (oracle : String → ProviderOutcomes α)
    (prices : List (String × Option α)) (t : String) (x : α)
    (hnd : (prices.map Prod.fst).Nodup) (hmem : (t, some x) ∈ prices) :
    fillEntry oracle (t, some x) = ((t, some x), []) ∧
    (t, some x) ∈ (fill_missing_prices oracle prices).1 ∧
    ∀ p ∈ (fill_missing_prices oracle prices).2, p.1 ≠ t := by
  refine ⟨rfl, ?_, ?_⟩
  · rw [fill_missing_prices]
    exact List.mem_map.mpr ⟨(t, some x), hmem, rfl⟩
  · intro p hp
    rw [fill_missing_prices] at hp
    rw [List.mem_flatMap] at hp
    obtain ⟨e, he, hpe⟩ := hp
    rw [List.mem_map] at hpe
    obtain ⟨pr, hpr, rfl⟩ := hpe
    obtain ⟨k, v⟩ := e
    intro hteq
    have hk : k = t := hteq
    subst hk
    have hv : v = some x := eq_of_mem_of_nodup_keys hnd he hmem
    subst hv
    simp [fillEntry] at hpr

/-- Witness for C10: with every provider failing, the resolved entry
`("Y", some 5)` passes through untouched, and no provider call is logged for
`"Y"` (only `"X"`'s calls appear). -/
theorem price_fallback_frame_witness :
    fillEntry allFailOracle ("Y", some (5 : Int)) = (("Y", some 5), []) ∧
    ("Y", some (5 : Int)) ∈
      (fill_missing_prices allFailOracle [("Y", some 5), ("X", none)]).1 ∧
    ∀ p ∈ (fill_missing_prices allFailOracle [("Y", some 5), ("X", none)]).2,
      p.1 ≠ "Y" :=
  price_fallback_frame allFailOracle [("Y", some 5), ("X", none)] "Y" 5
    (by decide) (by simp)

/-! ## Statement-cache keying — `scripts/providers.py`, `_stmt_cache_path`

```python
ALPHA_STMT_DIR = os.path.join(CACHE_DIR, "alpha")

def _stmt_cache_path(symbol: str, kind: str) -> str:
    fn = f"{symbol.replace('/', '_')}_{kind}.json"
    return os.path.join(ALPHA_STMT_DIR, fn)
```

Strings are embedded as `List Char`; `str.replace('/', '_')` on single
characters is a character-wise map, and `os.path.join` with a fixed
directory is appending to a constant path.
-/

/-- `symbol.replace('/', '_')`. -/
def pySlashToUnderscore (s : List Char) : List Char :=
  s.map (fun c => if c = '/' then '_' else c)

/-- The cache directory the module computes (`.../cache/alpha`), a run
constant. -/
def ALPHA_STMT_DIR : List Char := "scripts/../cache/alpha".toList

/-- `_stmt_cache_path`: directory, escaped symbol, `'_'`, kind, `".json"`. -/
def stmt_cache_path (symbol kind : List Char) : List Char :=
  ALPHA_STMT_DIR ++ '/' :: (pySlashToUnderscore symbol ++ '_' :: (kind ++ ".json".toList))

/-- C8 counterexample: the distinct symbols `"A/B"` and `"A_B"` collide on
every kind — the escaped forms coincide, so the two cache entries share one
file path. -/
theorem cache_key_counterexample :
    stmt_cache_path "A/B".toList "income".toList =
      stmt_cache_path "A_B".toList "income".toList ∧
    ("A/B".toList, "income".toList) ≠ ("A_B".toList, "income".toList) := by
  decide

/-- Splitting at a separator character absent from both left parts is
unambiguous. -/
theorem append_sep_inj (c : Char) :
    ∀ (s₁ s₂ t₁ t₂ : List Char), c ∉ s₁ → c ∉ s₂ →
      s₁ ++ c :: t₁ = s₂ ++ c :: t₂ → s₁ = s₂ ∧ t₁ = t₂ := by
  intro s₁
  induction s₁ with
  | nil =>
    intro s₂ t₁ t₂ _ hs₂ heq
    cases s₂ with
    | nil => exact ⟨rfl, by injection heq⟩
    | cons d s₂' =>
      injection heq with h1 _
      exact absurd (h1 ▸ List.mem_cons_self d s₂') hs₂
  | cons d s₁' ih =>
    intro s₂ t₁ t₂ hs₁ hs₂ heq
    cases s₂ with
    | nil =>
      injection heq with h1 _
      exact absurd (h1.symm ▸ List.mem_cons_self d s₁') hs₁
    | cons d' s₂' =>
      injection heq with h1 h2
      have hs₁' : c ∉ s₁' := fun h => hs₁ (List.mem_cons_of_mem d h)
      have hs₂' : c ∉ s₂' := fun h => hs₂ (List.mem_cons_of_mem d' h)
      obtain ⟨hsa, hsb⟩ := ih s₂' t₁ t₂ hs₁' hs₂' h2
      exact ⟨by rw [h1, hsa], hsb⟩

/-- A symbol without `'/'` is left unchanged by the escaping. -/
theorem pySlashToUnderscore_eq_self :
    ∀ s : List Char, '/' ∉ s → pySlashToUnderscore s = s := by
  intro s
  induction s with
  | nil => intro _; rfl
  | cons d s' ih =>
    intro hs
    have hd : d ≠ '/' := fun h => hs (h ▸ List.mem_cons_self d s')
    have hs' : '/' ∉ s' := fun h => hs (List.mem_cons_of_mem d h)
    unfold pySlashToUnderscore at ih ⊢
    rw [List.map_cons, if_neg hd, ih hs']

/-- C8 (amended) — Cache key injectivity on path-safe symbols: for symbols
containing neither `'/'` nor `'_'`, distinct `(symbol, kind)` pairs always
map to distinct cache file paths. -/
theorem cache_key_injective (s₁ s₂ k₁ k₂ : List Char)
    (h₁s : '/' ∉ s₁) (h₁u : '_' ∉ s₁) (h₂s : '/' ∉ s₂) (h₂u : '_' ∉ s₂)
    (hne : (s₁, k₁) ≠ (s₂, k₂)) :
    stmt_cache_path s₁ k₁ ≠ stmt_cache_path s₂ k₂ := by
  intro heq
  apply hne
  unfold stmt_cache_path at heq
  have heq₁ := List.append_cancel_left heq
  injection heq₁ with _ heq₂
  rw [pySlashToUnderscore_eq_self s₁ h₁s, pySlashToUnderscore_eq_self s₂ h₂s] at heq₂
  obtain ⟨hs, hk'⟩ := append_sep_inj '_' s₁ s₂ _ _ h₁u h₂u heq₂
  have hk : k₁ = k₂ := List.append_cancel_right hk'
  rw [hs, hk]

/-- Witness for C8 (amended): two ordinary symbols with the same kind get
distinct cache paths. -/
theorem cache_key_injective_witness :
    stmt_cache_path "AAPL".toList "income".toList ≠
      stmt_cache_path "MSFT".toList "income".toList :=
  cache_key_injective "AAPL".toList "MSFT".toList "income".toList "income".toList
    (by decide) (by decide) (by decide) (by decide) (by decide)

/-! ## Price resolution in `main` — `scripts/fetch_and_build.py`

The module's import list is

```python
from scripts.providers import price_tiingo, price_yfinance, usd_jpy_yfinance,
    next_event_yfinance, alpha_overview, alpha_statements, AlphaBudget, RateLimit
```

and the per-ticker price block inside `main` is

```python
close = None
try:
    close = price_tiingo(tkr)
except RateLimit:
    close = price_yfinance(tkr)
if close is None:
    close = price_yfinance(tkr)
```

`main` never calls `yf_download_prices_batched` or `fill_missing_prices`,
and `price_yfinance`, `usd_jpy_yfinance`, `next_event_yfinance` do not exist
in `scripts/providers.py`, so importing the module raises `ImportError`.
-/

/-- Top-level functions and classes defined by `scripts/providers.py`. -/
def providersModuleDefs : List String :=
  ["RateLimit", "_backoff_sleep", "_to_float", "yf_symbol", "yf_download_prices",
   "yf_download_prices_batched", "price_tiingo", "price_alpha_global_quote",
   "price_stooq", "fill_missing_prices", "fx_usdjpy_alpha", "fx_usdjpy_exrate_host",
   "usd_jpy_rate", "_alpha_get", "alpha_overview", "_stmt_cache_path",
   "_load_stmt_cache", "_save_stmt_cache", "AlphaBudget", "alpha_statements",
   "yf_info_pe_ps_div", "yf_next_event_date"]

/-- The names `scripts/fetch_and_build.py` imports from `scripts.providers`. -/
def fetchAndBuildProviderImports : List String :=
  ["price_tiingo", "price_yfinance", "usd_jpy_yfinance", "next_event_yfinance",
   "alpha_overview", "alpha_statements", "AlphaBudget", "RateLimit"]

/-- Possible results of `price_tiingo` as seen by `main`: a returned value,
a `RateLimit` (caught by `main`), or any other exception (uncaught). -/
inductive TiingoOut (α : Type) where
  | ok (v : Option α)
  | rateLimited
  | raised

/-- The providers `main`'s per-ticker price block can call. -/
inductive MainPriceAttempt where
  | tiingo
  | yfinance
deriving DecidableEq

/-- The per-ticker price block of `main`: final `close` (or an uncaught
exception) and the ordered attempts. `y₁`, `y₂` are the results of the first
and second `price_yfinance` call. -/
def mainPriceResolve {α : Type} (r : TiingoOut α) (y₁ y₂ : Option α) :
    Except Unit (Option α) × List MainPriceAttempt :=
  match r with
  | .raised => (.error (), [.tiingo])
  | .ok (some x) => (.ok (some x), [.tiingo])
  | .ok none => (.ok y₁, [.tiingo, .yfinance])
  | .rateLimited =>
    match y₁ with
    | some x => (.ok (some x), [.tiingo, .yfinance])
    | none => (.ok y₂, [.tiingo, .yfinance, .yfinance])

/-- C9 — divergence evidence: `main`'s price resolution always attempts
the per-symbol Tiingo call first (never a whole-universe batch), and the
module's import list asks `scripts.providers` for `price_yfinance` /
`usd_jpy_yfinance` / `next_event_yfinance`, which that module does not
define, while the batched fetch `yf_download_prices_batched` and the
fallback filler `fill_missing_prices` exist there but are never imported. -/
theorem price_cascade_divergence :
    (∀ (r : TiingoOut Int) (y₁ y₂ : Option Int),
      ((mainPriceResolve r y₁ y₂).2).head? = some MainPriceAttempt.tiingo) ∧
    "price_yfinance" ∈ fetchAndBuildProviderImports ∧
    "price_yfinance" ∉ providersModuleDefs ∧
    "usd_jpy_yfinance" ∈ fetchAndBuildProviderImports ∧
    "usd_jpy_yfinance" ∉ providersModuleDefs ∧
    "next_event_yfinance" ∈ fetchAndBuildProviderImports ∧
    "next_event_yfinance" ∉ providersModuleDefs ∧
    "yf_download_prices_batched" ∈ providersModuleDefs ∧
    "yf_download_prices_batched" ∉ fetchAndBuildProviderImports ∧
    "fill_missing_prices" ∈ providersModuleDefs ∧
    "fill_missing_prices" ∉ fetchAndBuildProviderImports := by
  refine ⟨?_, by decide, by decide, by decide, by decide, by decide, by decide,
    by decide, by decide, by decide, by decide⟩
  intro r y₁ y₂
  cases r with
  | raised => rfl
  | rateLimited => cases y₁ <;> rfl
  | ok v => cases v <;> rfl

end BmUniverseEod
